import Mathlib

/-!
# Verification of the better-diary date/path utilities and file-intake pipeline

Shallow embedding of the two source files of the plugin:

* `src/utils.ts` — daily-note name / month-directory / full-path derivation,
  date-format validation, and daily-note path recognition;
* the file-handling module — `handleFiles`, `handleSingleFile`,
  `createAndInsertWithFileReader`, `countFilesWithSamePrefix`,
  `limitImageFileSize`, `shouldHandleAccordingToConfig`.

JavaScript `Date` values are modelled by `JsDate` (calendar fields plus the
time-of-day hour); `date.setDate(date.getDate() - 1)` becomes the pure
function `prevCalendarDay` and the source's in-place mutation becomes
explicit state passing (each mutating function returns the final date along
with its string result).  `dayjs().get(\x27hour\x27)` — the wall-clock hour at
call time — becomes an explicit `nowHour` parameter.

The `dayjs` format language is modelled for the token subset the plugin's
spec exercises: `YYYY`, `MM`, `DD` and literal (non-token) characters, both
for rendering (`formatDate`) and for strict parsing
(`strictParseDailyDate`, the model of `dayjs(name, format, true)`).
-/

/-- Split a character list at every occurrence of the separator; like
JavaScript `split`, the result is never empty and keeps empty fragments. -/
def splitChars (sep : Char) : List Char → List (List Char)
  | [] => [[]]
  | c :: rest =>
    let r := splitChars sep rest
    if c = sep then [] :: r
    else
      match r with
      | h :: t => (c :: h) :: t
      | [] => [[c]]

/-- JavaScript `s.split(sep)` for a one-character separator (the only kind
the source uses: "/", ".", ","). -/
def jsSplit (s : String) (sep : Char) : List String :=
  (splitChars sep s.data).map String.mk

/-- Is the first list a prefix of the second? -/
def listPre : List Char → List Char → Bool
  | [], _ => true
  | _ :: _, [] => false
  | a :: as, b :: bs => a = b && listPre as bs

/-- Does the second list contain the first as a contiguous sublist? -/
def listIncl (pat : List Char) : List Char → Bool
  | [] => listPre pat []
  | c :: rest => listPre pat (c :: rest) || listIncl pat rest

/-- Substring test, the model of the JavaScript/Obsidian
`String.prototype.contains` / `includes`. -/
def strIncludes (s pat : String) : Bool :=
  listIncl pat.data s.data

/-- JavaScript `s.startsWith(pre)`. -/
def strStarts (s pre : String) : Bool :=
  listPre pre.data s.data

/-- JavaScript `s.endsWith(suf)`. -/
def strEnds (s suf : String) : Bool :=
  listPre suf.data.reverse s.data.reverse

/-- JavaScript `arr.slice(-2, -1)`: the one-element list holding the
second-to-last element when the list has at least two elements, `[]`
otherwise. -/
def sliceNeg2Neg1 {α : Type} (l : List α) : List α :=
  (l.take (l.length - 1)).drop (l.length - 2)

/-- JavaScript truthiness of an array value: an array object is *always*
truthy (`![]` evaluates to `false`), regardless of its contents.  The
source's `if (!monthDir)` guard tests exactly this. -/
def jsArrayFalsy {α : Type} (_ : List α) : Bool :=
  false

/-- Model of a JavaScript `Date`: calendar fields plus the hour of the day.
`month` is 0-based (0 = January … 11 = December), as in JavaScript. -/
structure JsDate where
  year : Int
  month : Nat
  day : Nat
  hour : Nat
deriving DecidableEq, Repr

/-- Gregorian leap-year rule, as implemented by JavaScript `Date`. -/
def isLeapYear (y : Int) : Bool :=
  (y % 4 == 0 && y % 100 != 0) || y % 400 == 0

/-- Number of days of month `m` (0-based) of year `y`. -/
def daysInMonth (y : Int) (m : Nat) : Nat :=
  match m with
  | 0 => 31
  | 1 => if isLeapYear y then 29 else 28
  | 2 => 31
  | 3 => 30
  | 4 => 31
  | 5 => 30
  | 6 => 31
  | 7 => 31
  | 8 => 30
  | 9 => 31
  | 10 => 30
  | _ => 31

/-- The pure model of `date.setDate(date.getDate() - 1)` on a valid date:
one calendar day earlier, with month/year rollover, time of day unchanged. -/
def prevCalendarDay (d : JsDate) : JsDate :=
  if d.day > 1 then
    { d with day := d.day - 1 }
  else if d.month > 0 then
    { d with month := d.month - 1, day := daysInMonth d.year (d.month - 1) }
  else
    { d with year := d.year - 1, month := 11, day := 31 }

/-- `date.toLocaleString("en-GB", \x7b month: "short" \x7d)`: three-letter
English month abbreviation. -/
def monthShortName (m : Nat) : String :=
  match m with
  | 0 => "Jan"
  | 1 => "Feb"
  | 2 => "Mar"
  | 3 => "Apr"
  | 4 => "May"
  | 5 => "Jun"
  | 6 => "Jul"
  | 7 => "Aug"
  | 8 => "Sep"
  | 9 => "Oct"
  | 10 => "Nov"
  | _ => "Dec"

/-- Left-pad a numeral string with zeros to the given length. -/
def padZeros (len : Nat) (s : String) : String :=
  String.mk (List.replicate (len - s.length) '0') ++ s

/-- Two-digit zero-padded rendering (`MM` / `DD` tokens). -/
def pad2 (n : Nat) : String :=
  padZeros 2 (toString n)

/-- Four-digit zero-padded year rendering (`YYYY` token); negative years are
out of the modelled scope and rendered with their sign. -/
def yearStr (y : Int) : String :=
  if 0 ≤ y then padZeros 4 (toString y.toNat) else toString y

/-- Token-by-token interpreter of the modelled `dayjs` format subset. -/
def renderFormat (fmt : List Char) (d : JsDate) : String :=
  match fmt with
  | 'Y' :: 'Y' :: 'Y' :: 'Y' :: fr => yearStr d.year ++ renderFormat fr d
  | 'M' :: 'M' :: fr => pad2 (d.month + 1) ++ renderFormat fr d
  | 'D' :: 'D' :: fr => pad2 d.day ++ renderFormat fr d
  | c :: fr => String.mk [c] ++ renderFormat fr d
  | [] => ""

/-- `formatDate(format, date)` of `utils.ts`: `dayjs(date).format(format)`,
for the modelled token subset. -/
def formatDate (format : String) (date : JsDate) : String :=
  renderFormat format.data date

/-- Read exactly `k` decimal digits, returning their value and the rest of
the input. -/
def readDigitsAux (k : Nat) (acc : Nat) (s : List Char) : Option (Nat × List Char) :=
  match k, s with
  | 0, s => some (acc, s)
  | k + 1, c :: rest =>
    if c.isDigit then readDigitsAux k (acc * 10 + (c.toNat - 48)) rest else none
  | _ + 1, [] => none

/-- Strict matcher of a date string against a format: every format token must
consume exactly its digits, every literal character must match, and the whole
input must be consumed.  Models `dayjs(input, format, true)` for the token
subset `YYYY` / `MM` / `DD` plus literal characters. -/
def matchDateFormat (fmt : List Char) (s : List Char)
    (y m d : Option Nat) : Option (Option Nat × Option Nat × Option Nat) :=
  match fmt, s with
  | 'Y' :: 'Y' :: 'Y' :: 'Y' :: fr, s =>
    match readDigitsAux 4 0 s with
    | some (v, s2) => matchDateFormat fr s2 (some v) m d
    | none => none
  | 'M' :: 'M' :: fr, s =>
    match readDigitsAux 2 0 s with
    | some (v, s2) => matchDateFormat fr s2 y (some v) d
    | none => none
  | 'D' :: 'D' :: fr, s =>
    match readDigitsAux 2 0 s with
    | some (v, s2) => matchDateFormat fr s2 y m (some v)
    | none => none
  | c :: fr, c2 :: s2 => if c = c2 then matchDateFormat fr s2 y m d else none
  | [], [] => some (y, m, d)
  | _, _ => none

/-- Strict parse of a note name against a date format and validation of the
decoded calendar date (the combination `dayjs(name, format, true)` followed
by `.isValid()`).  A format without a year token is outside the modelled
scope and rejected; a missing month or day defaults to January / the 1st. -/
def strictParseDailyDate (noteName dateFormat : String) : Option JsDate :=
  match matchDateFormat dateFormat.data noteName.data none none none with
  | some (some y, m?, d?) =>
    let m := m?.getD 1
    let d := d?.getD 1
    if 1 ≤ m && m ≤ 12 && 1 ≤ d && d ≤ daysInMonth (Int.ofNat y) (m - 1) then
      some ⟨Int.ofNat y, m - 1, d, 0⟩
    else none
  | _ => none

/-- `getDailyNoteName` of `utils.ts`.  `nowHour` models
`dayjs().get(\x27hour\x27)` — the wall-clock hour at call time.  The source
mutates `date` in place; the model returns the formatted string together
with the final date value. -/
def getDailyNoteName (assumeSameDayBeforeHour : Nat) (dateFormat : String)
    (nowHour : Nat) (date : JsDate)
    (considerAssumeSameDayBeforeHour : Bool) : String × JsDate :=
  let date :=
    if nowHour < assumeSameDayBeforeHour ∧ considerAssumeSameDayBeforeHour then
      prevCalendarDay date
    else date
  (formatDate dateFormat date, date)

/-- `getMonthDirPath` of `utils.ts`: `rootDir/YYYY/Mon`, with the boundary
check offset by one against the wall-clock hour.  Returns the final date
value alongside the path. -/
def getMonthDirPath (rootDir : String) (assumeSameDayBeforeHour : Nat)
    (nowHour : Nat) (date : JsDate)
    (considerAssumeSameDayBeforeHour : Bool) : String × JsDate :=
  let date :=
    if nowHour + 1 < assumeSameDayBeforeHour ∧ considerAssumeSameDayBeforeHour then
      prevCalendarDay date
    else date
  (rootDir ++ "/" ++ toString date.year ++ "/" ++ monthShortName date.month, date)

/-- `getDailyNotePath` of `utils.ts`: the note name is computed with the
boundary rule enabled, and the *same, possibly already decremented* date
value then flows into `getMonthDirPath`, which is called with the boundary
flag at its default `false`. -/
def getDailyNotePath (rootDir : String) (assumeSameDayBeforeHour : Nat)
    (dateFormat : String) (nowHour : Nat) (date : JsDate) : String :=
  let r1 := getDailyNoteName assumeSameDayBeforeHour dateFormat nowHour date true
  let r2 := getMonthDirPath rootDir assumeSameDayBeforeHour nowHour r1.2 false
  r2.1 ++ "/" ++ r1.1 ++ ".md"

/-- The date value left behind by `getDailyNotePath`'s two threaded calls:
the value both the note name and the month directory were rendered from. -/
def getDailyNotePathFinalDate (rootDir : String) (assumeSameDayBeforeHour : Nat)
    (dateFormat : String) (nowHour : Nat) (date : JsDate) : JsDate :=
  (getMonthDirPath rootDir assumeSameDayBeforeHour nowHour
    (getDailyNoteName assumeSameDayBeforeHour dateFormat nowHour date true).2
    false).2

/-- `checkValidDailyNotePath` of `utils.ts`.  Note the `slice(-2, -1)`
result is a JavaScript *array*, so the `if (!monthDir)` guard tests array
truthiness. -/
def checkValidDailyNotePath (notePath : String) (dateFormat : String) : Option JsDate :=
  let noteName := ((jsSplit ((jsSplit notePath '/').getLastD "") '.').headD "")
  if noteName = "" then
    none
  else
    match strictParseDailyDate noteName dateFormat with
    | none => none
    | some date =>
      let monthDir := sliceNeg2Neg1 (jsSplit notePath '/')
      if jsArrayFalsy monthDir then none
      else some date

example : checkValidDailyNotePath "notes/2024-01-15.md" "YYYY-MM-DD"
    = some ⟨2024, 0, 15, 0⟩ := by decide

example : checkValidDailyNotePath "2024-01-15.md" "YYYY-MM-DD"
    = some ⟨2024, 0, 15, 0⟩ := by decide

example : checkValidDailyNotePath "notes/2024-13-15.md" "YYYY-MM-DD" = none := by
  decide

example : checkValidDailyNotePath "notes/2024-02-30.md" "YYYY-MM-DD" = none := by
  decide

example : formatDate "YYYY-MM-DD" ⟨2024, 0, 15, 3⟩ = "2024-01-15" := by decide

example : getDailyNotePath "diary" 6 "YYYY-MM-DD" 2 ⟨2024, 0, 1, 2⟩
    = "diary/2023/Dec/2023-12-31.md" := by decide

example : getDailyNotePath "diary" 6 "YYYY-MM-DD" 9 ⟨2024, 0, 1, 9⟩
    = "diary/2024/Jan/2024-01-01.md" := by decide

/-! ## Date/path claims -/

/-- **C1** (code_bug evidence).  The claim states `checkValidDailyNotePath`
returns a date only for paths with at least two `/`-separated segments, so
that `"2024-01-15.md"` yields `none`.  The code instead returns the date for
the single-segment path as well: `split("/").slice(-2, -1)` produces a
JavaScript array, and `if (!monthDir)` can never fire because an array is
always truthy — the month-directory guard is dead code. -/
theorem C1_monthdir_guard_never_fires :
    checkValidDailyNotePath "2024-01-15.md" "YYYY-MM-DD"
      = some ⟨2024, 0, 15, 0⟩
    ∧ checkValidDailyNotePath "notes/2024-01-15.md" "YYYY-MM-DD"
      = some ⟨2024, 0, 15, 0⟩
    ∧ ∀ (l : List String), jsArrayFalsy l = false := by
  refine ⟨by decide, by decide, fun l => rfl⟩

/-- **C3**.  `getDailyNotePath` equals `monthDir ++ "/" ++ noteName ++ ".md"`
for the note name and month directory it computes, and both components are
rendered from the same boundary-adjusted date: the input date decremented by
one calendar day exactly when the wall-clock hour is below the boundary
hour. -/
theorem C3_path_composition (rootDir : String) (h : Nat) (fmt : String)
    (c : Nat) (d : JsDate) :
    getDailyNotePath rootDir h fmt c d
      = (getMonthDirPath rootDir h c
          (getDailyNoteName h fmt c d true).2 false).1
        ++ "/" ++ (getDailyNoteName h fmt c d true).1 ++ ".md"
    ∧ getDailyNotePath rootDir h fmt c d
      = (getMonthDirPath rootDir h c
          (if c < h then prevCalendarDay d else d) false).1
        ++ "/" ++ formatDate fmt (if c < h then prevCalendarDay d else d)
        ++ ".md" := by
  constructor
  · rfl
  · by_cases hc : c < h <;>
      simp [getDailyNotePath, getDailyNoteName, getMonthDirPath, hc]

/-- **C4**.  `getDailyNoteName` subtracts exactly one calendar day before
formatting iff the boundary flag is set and the current wall-clock hour `c`
(a parameter independent of the timestamp being formatted) is strictly below
the boundary hour `h`; with `h = 0` the rule never triggers. -/
theorem C4_boundary_rule (h : Nat) (fmt : String) (c : Nat) (d : JsDate)
    (flag : Bool) :
    ((getDailyNoteName h fmt c d flag).2
      = if c < h ∧ flag = true then prevCalendarDay d else d)
    ∧ ((getDailyNoteName h fmt c d flag).1
      = formatDate fmt (getDailyNoteName h fmt c d flag).2)
    ∧ (getDailyNoteName 0 fmt c d flag).2 = d := by
  refine ⟨rfl, rfl, ?_⟩
  simp [getDailyNoteName]

/-- **C5**.  Through `getDailyNotePath` the same (possibly decremented) date
value flows into both the note-name and the month-directory computations,
and the final date equals the original date or its one-day decrement — it is
never decremented twice.  The same bound holds for each derivation function
on its own. -/
theorem C5_at_most_one_day_earlier (rootDir : String) (h : Nat)
    (fmt : String) (c : Nat) (d : JsDate) :
    (getDailyNotePathFinalDate rootDir h fmt c d = d
      ∨ getDailyNotePathFinalDate rootDir h fmt c d = prevCalendarDay d)
    ∧ (∀ flag, (getDailyNoteName h fmt c d flag).2 = d
      ∨ (getDailyNoteName h fmt c d flag).2 = prevCalendarDay d)
    ∧ (∀ flag, (getMonthDirPath rootDir h c d flag).2 = d
      ∨ (getMonthDirPath rootDir h c d flag).2 = prevCalendarDay d) := by
  refine ⟨?_, ?_, ?_⟩
  · by_cases hc : c < h <;>
      simp [getDailyNotePathFinalDate, getDailyNoteName, getMonthDirPath, hc]
  · intro flag
    by_cases hc : c < h ∧ flag = true <;> simp [getDailyNoteName, hc]
  · intro flag
    by_cases hc : c + 1 < h ∧ flag = true <;> simp [getMonthDirPath, hc]

/-!
## File-intake pipeline

State of the host application visible to the pipeline: the vault's binary
entries and folders, the notices shown so far, and the texts inserted at the
editor selection (each `editor.replaceSelection` call appends one).  The
asynchronous `FileReader` callback becomes an explicit deferred action: the
JavaScript event loop runs `onloadend` only after the registering call has
returned, so `handleSingleFile` returns its immediate result *plus* the
deferred per-file action, and `handleFilesRun` runs the scheduled actions
after the batch loop, in order.
-/

/-- An incoming dropped/pasted file; `contentB64` is its base64-encoded
payload as the `FileReader` data URL will carry it. -/
structure FileModel where
  name : String
  type : String
  contentB64 : String
deriving DecidableEq, Repr

/-- The file backing a markdown view (`TFile`): path, parent folder path
(`null` for none), base name without extension. -/
structure TFileModel where
  path : String
  parentPath : Option String
  basename : String
deriving DecidableEq, Repr

/-- A markdown view, possibly not backed by a file. -/
structure MarkdownViewModel where
  file : Option TFileModel
deriving DecidableEq, Repr

/-- The `fileHandlingScenario` setting. -/
inductive FileHandlingScenario where
  | disabled
  | dailyNotesOnly
  | allNotes
deriving DecidableEq, Repr

/-- The plugin settings consumed by the pipeline. -/
structure BetterDailyNotesSettings where
  dateFormat : String
  fileHandlingScenario : FileHandlingScenario
  imageSubDir : String
  otherFilesSubDir : String
  maxImageSizeKB : Int
  preserveExifData : Bool
  resizeWidth : Int
deriving DecidableEq, Repr

/-- Observable host state: vault binary entries `(path, bytes)`, vault
folders, notices `(message, optional duration)` — duration `some 0` is a
persistent notice — and the texts inserted at the editor selection. -/
structure AppState where
  vaultFiles : List (String × String)
  vaultFolders : List String
  notices : List (String × Option Nat)
  insertions : List String
deriving DecidableEq, Repr

/-- External collaborators, treated as opaque: the image-compression
transform (taking the size target and the EXIF flag), the base64 decoder
backing `base64ToArrayBuffer` (bytes are modelled abstractly as strings),
the set of paths at which `vault.createBinary` throws, and Obsidian's
`normalizePath`. -/
structure HostEnv where
  compress : FileModel → Int → Bool → FileModel
  atob : String → String
  createFails : String → Bool
  normalizePath : String → String

/-- `app.vault.getAbstractFileByPath(path)` as a Boolean: does a file or a
folder exist at the path? -/
def getAbstractFileByPath (st : AppState) (path : String) : Bool :=
  (st.vaultFiles.map Prod.fst).contains path || st.vaultFolders.contains path

/-- `countFilesWithSamePrefix` of the file-handling module: over
`vault.getFiles()` filtered to paths starting with `dirPath`, count the
paths that start with `dirPath`, contain `pre` as a substring, and do not
end with `.md`. -/
def countFilesWithSamePrefix (st : AppState) (dirPath : String) (pre : String) : Nat :=
  (((st.vaultFiles.map Prod.fst).filter (fun p => strStarts p dirPath)).filter
    (fun p => strStarts p dirPath && strIncludes p pre && !(strEnds p ".md"))).length

/-- `limitImageFileSize`: pass-through when the size limit is `-1`,
otherwise a "Compressing image …" notice followed by the black-box
compression transform. -/
def limitImageFileSize (env : HostEnv) (file : FileModel) (size : Int)
    (preserveExifData : Bool) (st : AppState) : FileModel × AppState :=
  if size = -1 then (file, st)
  else
    (env.compress file size preserveExifData,
     { st with notices := st.notices ++
        [("Compressing image \"" ++ file.name ++ "\" to " ++ toString size ++ "KB",
          none)] })

/-- `shouldHandleAccordingToConfig`: a view must be file-backed, the
scenario must not be `disabled`, and under `daily notes only` the view's
path must parse as a daily note (a JavaScript `Date` object is truthy, a
`null` is falsy, so `!date` is exactly `Option.isNone`). -/
def shouldHandleAccordingToConfig (settings : BetterDailyNotesSettings)
    (markdownView : MarkdownViewModel) : Bool :=
  match markdownView.file with
  | none => false
  | some f =>
    if settings.fileHandlingScenario = .disabled then false
    else if settings.fileHandlingScenario = .dailyNotesOnly
        ∧ checkValidDailyNotePath f.path settings.dateFormat = none then false
    else true

/-- Modelled from the spec: `createDirsIfNotExists` lives in
`fileSystem.ts`, which is not among the provided sources.  Per §4.2.c of the
spec it ensures the target subdirectory exists, creating intermediate
directories as needed, a pre-existing directory not being an error.
Modelled as idempotently recording the directory path among the vault
folders; no claim is decided by its internals. -/
def createDirsIfNotExists (st : AppState) (dirPath : String) : AppState :=
  if st.vaultFolders.contains dirPath then st
  else { st with vaultFolders := st.vaultFolders ++ [dirPath] }

/-- `reader.result?.toString().split(",")[1]`: the payload after the first
comma of the data URL, absent when there is no reader result or no comma. -/
def extractB64 (result : Option String) : Option String :=
  result.bind (fun r => ((jsSplit r ',').drop 1).head?)

/-- JavaScript falsiness of `string | undefined`: `undefined` and the empty
string are falsy. -/
def jsFalsyOptStr (o : Option String) : Bool :=
  o.getD "" = ""

/-- `filePath[0] === \x27/\x27 ? filePath.substring(1) : filePath`. -/
def jsStrip (s : String) : String :=
  if s.data.head? = some '/' then String.mk (s.data.tail) else s

/-- `base64ToArrayBuffer`: `window.atob` plus the byte-array construction,
modelled through the opaque host decoder. -/
def base64ToArrayBuffer (env : HostEnv) (base64 : String) : String :=
  env.atob base64

/-- `createAndInsertWithFileReader`: decode the reader's data URL, build the
wiki link from the *unstripped* path, strip a leading slash, reuse an
existing entry, otherwise write the bytes — and on a write failure still
insert the link and show a persistent (duration 0) notice. -/
def createAndInsertWithFileReader (env : HostEnv) (st : AppState)
    (readerResult : Option String) (filePath : String) (fileName : String)
    (returnTrueIfExists : Bool) (resizeWidth : Int) : Bool × AppState :=
  let base64 := extractB64 readerResult
  if jsFalsyOptStr base64 then
    (false, { st with notices := st.notices ++
      [("Failed to create file \"" ++ filePath ++ "\", base64 is empty.", none)] })
  else
    let fileLinkResizeString := if resizeWidth ≠ -1 then "|" ++ toString resizeWidth else ""
    let fileLink := "![[" ++ filePath ++ fileLinkResizeString ++ "]]"
    let filePath := jsStrip filePath
    if getAbstractFileByPath st filePath && returnTrueIfExists then
      (true, { st with
        notices := st.notices ++
          [("File \"" ++ filePath ++ "\" already exists. Inserting link to the existed one.", none)],
        insertions := st.insertions ++ [fileLink] })
    else
      let fileArrayBuffer := base64ToArrayBuffer env (base64.getD "")
      if env.createFails filePath then
        (false, { st with
          notices := st.notices ++
            [("Failed to create file \"" ++ fileName ++ "\".", some 0)],
          insertions := st.insertions ++ [fileLink] })
      else
        (true, { st with
          vaultFiles := st.vaultFiles ++ [(filePath, fileArrayBuffer)],
          insertions := st.insertions ++ [fileLink] })

/-- Lines 103–125 of `handleSingleFile`: the branch on the MIME type that
fixes the (possibly compressed) file, the save subdirectory, the name
prefix and the collision suffix.  In the image branch the sibling count is
taken *before* `fileSaveSubDir` is assigned, i.e. against the empty
directory prefix — the quirk the spec preserves. -/
def computeSaveName (env : HostEnv) (settings : BetterDailyNotesSettings)
    (st : AppState) (viewParentPath viewFileName : String) (file0 : FileModel) :
    FileModel × String × String × String × AppState :=
  if strStarts file0.type "image" then
    let r := limitImageFileSize env file0 settings.maxImageSizeKB
      settings.preserveExifData st
    let countP := countFilesWithSamePrefix r.2 "" viewFileName
    (r.1,
     viewParentPath ++ "/" ++ settings.imageSubDir,
     viewFileName ++ "-image",
     if countP = 0 then "" else "-" ++ toString countP,
     r.2)
  else
    (file0,
     viewParentPath ++ "/" ++ settings.otherFilesSubDir,
     viewFileName ++ "-" ++ ((jsSplit file0.name '.').headD ""),
     "",
     st)

/-- The attachment file name `handleSingleFile` derives (line
`fileName = filePrefix + fileSuffix + "." + ext`, with `ext` the part of
the dropped file's name after its last dot). -/
def computedFileName (env : HostEnv) (settings : BetterDailyNotesSettings)
    (st : AppState) (viewParentPath viewFileName : String)
    (file0 : FileModel) : String :=
  let r := computeSaveName env settings st viewParentPath viewFileName file0
  r.2.2.1 ++ r.2.2.2.1 ++ "." ++ ((jsSplit r.1.name '.').getLastD "")

/-- `handleSingleFile`: returns its immediate result — the value of
`handleSuccess` at the `return` statement, which the `onloadend` callback
has not yet had a chance to reassign — together with the deferred
per-file action the registered `FileReader` callback will run. -/
def handleSingleFile (env : HostEnv) (settings : BetterDailyNotesSettings)
    (file : FileModel) (markdownView : MarkdownViewModel) (st : AppState) :
    Bool × AppState × List (AppState → Bool × AppState) :=
  match markdownView.file with
  | none => (false, st, [])
  | some tf =>
    let viewParentPath := tf.parentPath.getD ""
    let viewParentPath := if viewParentPath = "/" then "" else viewParentPath
    let viewFileName := tf.basename
    let r := computeSaveName env settings st viewParentPath viewFileName file
    let fileSaveSubDir := env.normalizePath r.2.1
    let ext := (jsSplit r.1.name '.').getLastD ""
    let fileName := r.2.2.1 ++ r.2.2.2.1 ++ "." ++ ext
    let filePath := env.normalizePath (fileSaveSubDir ++ "/" ++ fileName)
    let st := createDirsIfNotExists r.2.2.2.2 fileSaveSubDir
    let readerResult := some ("data:" ++ r.1.type ++ ";base64," ++ r.1.contentB64)
    (true, st,
     [fun s => createAndInsertWithFileReader env s readerResult filePath
        r.1.name true settings.resizeWidth])

/-- The batch loop of `handleFiles`: each file fully handled in input
order, its deferred reader action collected in order. -/
def processFiles (env : HostEnv) (settings : BetterDailyNotesSettings)
    (markdownView : MarkdownViewModel) :
    List FileModel → AppState → AppState × List (AppState → Bool × AppState)
  | [], st => (st, [])
  | f :: fs, st =>
    let r := handleSingleFile env settings f markdownView st
    let rest := processFiles env settings markdownView fs r.2.1
    (rest.1, r.2.2 ++ rest.2)

/-- The type filter: images by MIME-type prefix, plus exactly
`application/zip` and `application/pdf`. -/
def allowedFileType (f : FileModel) : Bool :=
  strStarts f.type "image" || f.type == "application/zip" || f.type == "application/pdf"

/-- The first file of the batch failing the type filter, if any (the
source's check loop returns at the first offender). -/
def findDisallowed (files : List FileModel) : Option FileModel :=
  files.find? (fun f => !allowedFileType f)

/-- `handleFiles`: gate on the drop payload and the configuration, then the
all-or-nothing type filter (one notice for the first offender and the whole
batch is left unhandled), then the sequential per-file loop. -/
def handleFiles (env : HostEnv) (settings : BetterDailyNotesSettings)
    (markdownView : MarkdownViewModel)
    (dataTransferFiles : Option (List FileModel)) (st : AppState) :
    AppState × List (AppState → Bool × AppState) :=
  match dataTransferFiles with
  | none => (st, [])
  | some files =>
    if !shouldHandleAccordingToConfig settings markdownView then (st, [])
    else if files.length = 0 then (st, [])
    else
      match findDisallowed files with
      | some f =>
        ({ st with notices := st.notices ++
          [("Only image, pdf, and zip files are supported. Get "
            ++ f.type ++ " instead.", none)] }, [])
      | none => processFiles env settings markdownView files st

/-- Run the deferred `FileReader` actions, in scheduling order, after the
batch loop has returned (the JavaScript event loop). -/
def runDeferred (ds : List (AppState → Bool × AppState)) (st : AppState) : AppState :=
  ds.foldl (fun s d => (d s).2) st

/-- A whole drop/paste event: the synchronous part of `handleFiles`
followed by every scheduled reader callback. -/
def handleFilesRun (env : HostEnv) (settings : BetterDailyNotesSettings)
    (markdownView : MarkdownViewModel)
    (dataTransferFiles : Option (List FileModel)) (st : AppState) : AppState :=
  let r := handleFiles env settings markdownView dataTransferFiles st
  runDeferred r.2 r.1

/-! ## Concrete fixtures for witness instances -/

/-- A benign host environment: identity compression and decoding, no write
failures, identity path normalization. -/
def sampleEnv : HostEnv :=
  { compress := fun f _ _ => f
    atob := fun s => s
    createFails := fun _ => false
    normalizePath := fun s => s }

/-- A host environment in which every `createBinary` call throws. -/
def failEnv : HostEnv :=
  { compress := fun f _ _ => f
    atob := fun s => s
    createFails := fun _ => true
    normalizePath := fun s => s }

/-- Settings handling files on all notes, with no size limit or resize. -/
def sampleSettings : BetterDailyNotesSettings :=
  { dateFormat := "YYYY-MM-DD"
    fileHandlingScenario := .allNotes
    imageSubDir := "images"
    otherFilesSubDir := "attachments"
    maxImageSizeKB := -1
    preserveExifData := true
    resizeWidth := -1 }

/-- A view backed by the daily note `diary/2024/Jan/2024-01-15.md`. -/
def sampleMv : MarkdownViewModel :=
  ⟨some ⟨"diary/2024/Jan/2024-01-15.md", some "diary/2024/Jan", "2024-01-15"⟩⟩

/-- The empty host state. -/
def st0 : AppState := ⟨[], [], [], []⟩

/-- A dropped PNG image. -/
def imgFile : FileModel := ⟨"pic.png", "image/png", "QUJD"⟩

/-- A dropped plain-text file — a type the filter rejects. -/
def txtFile : FileModel := ⟨"note.txt", "text/plain", "QUJD"⟩

/-- A dropped zip archive with two dots in its name. -/
def zipFile : FileModel := ⟨"archive.v2.zip", "application/zip", "QUJD"⟩

/-! ## Helper lemmas -/

/-- A file-backed view always schedules exactly one deferred reader action. -/
theorem handleSingleFile_sched (env : HostEnv)
    (settings : BetterDailyNotesSettings) (file : FileModel)
    (mv : MarkdownViewModel) (st : AppState) (tf : TFileModel)
    (hmv : mv.file = some tf) :
    (handleSingleFile env settings file mv st).2.2.length = 1 := by
  simp [handleSingleFile, hmv]

/-- The batch loop schedules one deferred action per file of the batch. -/
theorem processFiles_sched (env : HostEnv)
    (settings : BetterDailyNotesSettings) (mv : MarkdownViewModel)
    (tf : TFileModel) (hmv : mv.file = some tf) :
    ∀ (files : List FileModel) (st : AppState),
      (processFiles env settings mv files st).2.length = files.length := by
  intro files
  induction files with
  | nil => intro st; rfl
  | cons f fs ih =>
    intro st
    simp [processFiles, List.length_append, ih,
      handleSingleFile_sched env settings f mv st tf hmv, Nat.add_comm]

/-- A passing gate requires a file-backed view. -/
theorem shouldHandle_file_backed (settings : BetterDailyNotesSettings)
    (mv : MarkdownViewModel)
    (hg : shouldHandleAccordingToConfig settings mv = true) :
    ∃ tf, mv.file = some tf := by
  cases hmv : mv.file with
  | none => rw [shouldHandleAccordingToConfig, hmv] at hg; cases hg
  | some tf => exact ⟨tf, rfl⟩

/-! ## Pipeline claims -/

/-- **C2**.  When the storage write throws, `createAndInsertWithFileReader`
still inserts the wiki link at the editor selection, surfaces a persistent
(duration 0) failure notice, and returns `false` for that file; and the
batch loop of `handleFiles` schedules every file of an accepted batch
regardless, so no per-file failure aborts the remaining files. -/
theorem C2_write_failure_still_inserts (env : HostEnv) (st : AppState)
    (rr : Option String) (filePath fileName : String) (rw : Int)
    (settings : BetterDailyNotesSettings) (mv : MarkdownViewModel)
    (files : List FileModel) (st2 : AppState)
    (hb : jsFalsyOptStr (extractB64 rr) = false)
    (hnx : getAbstractFileByPath st (jsStrip filePath) = false)
    (hfail : env.createFails (jsStrip filePath) = true)
    (hg : shouldHandleAccordingToConfig settings mv = true)
    (hne : files ≠ [])
    (hall : findDisallowed files = none) :
    createAndInsertWithFileReader env st rr filePath fileName true rw
      = (false,
         { st with
           notices := st.notices ++
             [("Failed to create file \"" ++ fileName ++ "\".", some 0)],
           insertions := st.insertions ++
             ["![[" ++ filePath
               ++ (if rw ≠ -1 then "|" ++ toString rw else "") ++ "]]"] })
    ∧ (handleFiles env settings mv (some files) st2).2.length = files.length := by
  constructor
  · simp [createAndInsertWithFileReader, hb, hnx, hfail]
  · obtain ⟨tf, hmv⟩ := shouldHandle_file_backed settings mv hg
    simp [handleFiles, hg, List.length_eq_zero.not.mpr hne, hall,
      processFiles_sched env settings mv tf hmv files st2]

/-- Witness for C2: a two-image batch against an environment whose every
write throws; the failing write still inserts the link with a persistent
notice and reports `false`, and both files of the batch are scheduled. -/
theorem C2_witness :
    createAndInsertWithFileReader failEnv st0
        (some "data:image/png;base64,QUJD") "images/pic.png" "pic.png" true (-1)
      = (false,
         { st0 with
           notices := st0.notices ++
             [("Failed to create file \"pic.png\".", some 0)],
           insertions := st0.insertions ++
             ["![[" ++ "images/pic.png"
               ++ (if (-1 : Int) ≠ -1 then "|" ++ toString (-1 : Int) else "")
               ++ "]]"] })
    ∧ (handleFiles failEnv sampleSettings sampleMv
        (some [imgFile, imgFile]) st0).2.length = [imgFile, imgFile].length :=
  C2_write_failure_still_inserts failEnv st0
    (some "data:image/png;base64,QUJD") "images/pic.png" "pic.png" (-1)
    sampleSettings sampleMv [imgFile, imgFile] st0
    (by decide) (by decide) rfl rfl (by decide) rfl

/-- **C6**.  A batch containing any file whose MIME type is neither an
image type nor exactly `application/zip` / `application/pdf` is rejected
whole: after the event (including every deferred reader action — there are
none) no vault entry has been written and no reference inserted, even for
the allowed files of the batch. -/
theorem C6_bad_type_rejects_batch (env : HostEnv)
    (settings : BetterDailyNotesSettings) (mv : MarkdownViewModel)
    (files : List FileModel) (st : AppState) (f : FileModel)
    (hf : f ∈ files) (hbad : allowedFileType f = false) :
    (handleFilesRun env settings mv (some files) st).vaultFiles = st.vaultFiles
    ∧ (handleFilesRun env settings mv (some files) st).insertions
      = st.insertions := by
  have hfd : findDisallowed files ≠ none := by
    intro hnone
    have := List.find?_eq_none.mp hnone f hf
    simp [hbad] at this
  cases hg : shouldHandleAccordingToConfig settings mv with
  | false => simp [handleFilesRun, handleFiles, runDeferred, hg]
  | true =>
    cases hlen : files.length with
    | zero =>
      rw [List.length_eq_zero] at hlen
      subst hlen
      cases hf
    | succ n =>
      cases hfd2 : findDisallowed files with
      | none => exact absurd hfd2 hfd
      | some g =>
        simp [handleFilesRun, handleFiles, runDeferred, hg, hlen, hfd2]

/-- Witness for C6: a batch of one image and one `text/plain` file against
a vault-less state is rejected with the vault and editor untouched. -/
theorem C6_witness :
    (handleFilesRun sampleEnv sampleSettings sampleMv
        (some [imgFile, txtFile]) st0).vaultFiles = st0.vaultFiles
    ∧ (handleFilesRun sampleEnv sampleSettings sampleMv
        (some [imgFile, txtFile]) st0).insertions = st0.insertions :=
  C6_bad_type_rejects_batch sampleEnv sampleSettings sampleMv
    [imgFile, txtFile] st0 txtFile (by decide) (by decide)

/-- **C8**.  When a vault entry already exists at the (stripped) computed
path, the per-file handler performs no write — the vault, and so the
existing entry's bytes, are unchanged — still inserts the reference, shows
a notice, and returns `true`. -/
theorem C8_existing_path_skips_write (env : HostEnv) (st : AppState)
    (rr : Option String) (filePath fileName : String) (rw : Int)
    (hb : jsFalsyOptStr (extractB64 rr) = false)
    (hex : getAbstractFileByPath st (jsStrip filePath) = true) :
    createAndInsertWithFileReader env st rr filePath fileName true rw
      = (true,
         { st with
           notices := st.notices ++
             [("File \"" ++ jsStrip filePath
               ++ "\" already exists. Inserting link to the existed one.", none)],
           insertions := st.insertions ++
             ["![[" ++ filePath
               ++ (if rw ≠ -1 then "|" ++ toString rw else "") ++ "]]"] }) := by
  simp [createAndInsertWithFileReader, hb, hex]

/-- Witness for C8: dropping a file whose target path is already present
inserts a link to the existing entry, leaves the vault unchanged, and
reports success. -/
theorem C8_witness :
    createAndInsertWithFileReader sampleEnv
        ⟨[("images/pic.png", "OLD")], [], [], []⟩
        (some "data:image/png;base64,QUJD") "images/pic.png" "pic.png" true (-1)
      = (true,
         { (⟨[("images/pic.png", "OLD")], [], [], []⟩ : AppState) with
           notices := [("File \"" ++ jsStrip "images/pic.png"
             ++ "\" already exists. Inserting link to the existed one.", none)],
           insertions := ["![[" ++ "images/pic.png"
             ++ (if (-1 : Int) ≠ -1 then "|" ++ toString (-1 : Int) else "")
             ++ "]]"] }) :=
  C8_existing_path_skips_write sampleEnv
    ⟨[("images/pic.png", "OLD")], [], [], []⟩
    (some "data:image/png;base64,QUJD") "images/pic.png" "pic.png" (-1)
    (by decide) (by decide)

/-- **C9**.  For a file-backed view, `handleSingleFile` returns `true`
whatever the environment does later: `handleSuccess` is initialized to
`true` and reassigned only inside the `FileReader` `onloadend` callback,
which the event loop runs only after `handleSingleFile` has returned — so
the immediate result never reflects a decode or write failure. -/
theorem C9_handleSingleFile_returns_true (env : HostEnv)
    (settings : BetterDailyNotesSettings) (file : FileModel)
    (mv : MarkdownViewModel) (st : AppState) (tf : TFileModel)
    (hmv : mv.file = some tf) :
    (handleSingleFile env settings file mv st).1 = true := by
  simp [handleSingleFile, hmv]

/-- Witness for C9: even with every write throwing, the immediate per-file
result is `true`. -/
theorem C9_witness :
    (handleSingleFile failEnv sampleSettings imgFile sampleMv st0).1 = true :=
  C9_handleSingleFile_returns_true failEnv sampleSettings imgFile sampleMv st0
    ⟨"diary/2024/Jan/2024-01-15.md", some "diary/2024/Jan", "2024-01-15"⟩ rfl

/-- **C10**.  The wiki link is built from the `filePath` argument *before*
the leading slash is stripped, while the existence check and the write use
the stripped path: for a `filePath` beginning with `/`, the entry is
created at `jsStrip filePath`, the inserted link embeds the original
`filePath`, and the two path strings differ. -/
theorem C10_link_vs_created_path (env : HostEnv) (st : AppState)
    (rr : Option String) (filePath fileName : String) (rw : Int)
    (hslash : filePath.data.head? = some '/')
    (hb : jsFalsyOptStr (extractB64 rr) = false)
    (hnx : getAbstractFileByPath st (jsStrip filePath) = false)
    (hok : env.createFails (jsStrip filePath) = false) :
    createAndInsertWithFileReader env st rr filePath fileName true rw
      = (true,
         { st with
           vaultFiles := st.vaultFiles ++
             [(jsStrip filePath,
               base64ToArrayBuffer env ((extractB64 rr).getD ""))],
           insertions := st.insertions ++
             ["![[" ++ filePath
               ++ (if rw ≠ -1 then "|" ++ toString rw else "") ++ "]]"] })
    ∧ jsStrip filePath ≠ filePath := by
  constructor
  · simp [createAndInsertWithFileReader, hb, hnx, hok]
  · intro heq
    have hdata := congrArg String.data heq
    rw [jsStrip, if_pos hslash] at hdata
    cases hd : filePath.data with
    | nil => rw [hd] at hslash; cases hslash
    | cons c rest =>
      rw [hd] at hdata
      simp at hdata

/-- Witness for C10: a slash-prefixed target path is created at the
stripped path while the inserted link embeds the slashed one. -/
theorem C10_witness :
    createAndInsertWithFileReader sampleEnv st0
        (some "data:image/png;base64,QUJD") "/images/pic.png" "pic.png" true (-1)
      = (true,
         { st0 with
           vaultFiles := st0.vaultFiles ++
             [(jsStrip "/images/pic.png",
               base64ToArrayBuffer sampleEnv
                 ((extractB64 (some "data:image/png;base64,QUJD")).getD ""))],
           insertions := st0.insertions ++
             ["![[" ++ "/images/pic.png"
               ++ (if (-1 : Int) ≠ -1 then "|" ++ toString (-1 : Int) else "")
               ++ "]]"] })
    ∧ jsStrip "/images/pic.png" ≠ "/images/pic.png" :=
  C10_link_vs_created_path sampleEnv st0
    (some "data:image/png;base64,QUJD") "/images/pic.png" "pic.png" (-1)
    rfl (by decide) (by decide) rfl

/-- Following the words of the naming claim for non-image files: the
dropped file's name with its extension stripped, i.e. everything before the
*final* dot (the whole name when there is no dot). -/
def specNameWithoutExt (name : String) : String :=
  String.mk (List.intercalate ['.'] (((jsSplit name '.').dropLast).map String.data))

/-- **C7** counterexample.  For the non-image file `archive.v2.zip` dropped
on the document `mydoc`, the code derives `mydoc-archive.zip` — it keeps
only the part of the name before the *first* dot — while the claim's
formula `{documentBaseName}-{nameWithoutExtension}.{ext}` gives
`mydoc-archive.v2.zip`. -/
theorem C7_counterexample :
    computedFileName sampleEnv sampleSettings st0 "" "mydoc" zipFile
      = "mydoc-archive.zip"
    ∧ "mydoc" ++ "-" ++ specNameWithoutExt zipFile.name ++ "."
        ++ ((jsSplit zipFile.name '.').getLastD "")
      = "mydoc-archive.v2.zip"
    ∧ ("mydoc-archive.zip" : String) ≠ "mydoc-archive.v2.zip" := by
  refine ⟨by decide, by decide, by decide⟩

/-- **C7** amended.  For every non-image file the derived attachment name is
`{documentBaseName}-{partBeforeFirstDot}.{partAfterLastDot}` — the middle
part is everything before the file name's *first* dot, not the name with
its extension stripped — and no collision-count suffix is ever appended:
the name does not depend on the vault contents at all. -/
theorem C7_nonimage_name (env : HostEnv)
    (settings : BetterDailyNotesSettings) (st st2 : AppState)
    (viewParentPath viewFileName : String) (file : FileModel)
    (himg : strStarts file.type "image" = false) :
    computedFileName env settings st viewParentPath viewFileName file
      = viewFileName ++ "-" ++ ((jsSplit file.name '.').headD "") ++ "."
        ++ ((jsSplit file.name '.').getLastD "")
    ∧ computedFileName env settings st viewParentPath viewFileName file
      = computedFileName env settings st2 viewParentPath viewFileName file := by
  constructor <;> simp [computedFileName, computeSaveName, himg]

/-- Witness for the amended C7: the zip file's derived name, identical whether
the vault is empty or already holds many same-prefixed attachments. -/
theorem C7_witness :
    computedFileName sampleEnv sampleSettings st0 "" "mydoc" zipFile
      = "mydoc" ++ "-" ++ ((jsSplit zipFile.name '.').headD "") ++ "."
        ++ ((jsSplit zipFile.name '.').getLastD "")
    ∧ computedFileName sampleEnv sampleSettings st0 "" "mydoc" zipFile
      = computedFileName sampleEnv sampleSettings
          ⟨[("mydoc-1.zip", "X"), ("mydoc-2.zip", "X")], [], [], []⟩
          "" "mydoc" zipFile :=
  C7_nonimage_name sampleEnv sampleSettings st0
    ⟨[("mydoc-1.zip", "X"), ("mydoc-2.zip", "X")], [], [], []⟩
    "" "mydoc" zipFile (by decide)
